import Mathlib

/-!
Verification of the baas-client-js HTTP transport layer.

Shallow embedding of the request-execution code of the repository:
the stream executor `HttpNode` (src/unnamed/part_003), the sync-callback
executor `HttpXhr` (src/unnamed/part_012), the request facade
`HttpRequest` and its Result Channel (src/unnamed/part_004), the helper
functions of Head (src/unnamed/part_001), and the Range-header builder
`FileBucket._createRangeValue` (src/FileBucket.ts).

JavaScript host primitives used by the source (JSON.parse, JSON.stringify,
the String conversion of values, Buffer concatenation, object property
maps, and the settle-once semantics of es6 promises) are modelled
explicitly below; JSON.parse is passed as a parameter because the source
only observes whether it succeeds and with which value.
-/

namespace BaasClient

/-- JavaScript values as produced by the host `JSON.parse`. -/
inductive JsValue where
  | null
  | bool (b : Bool)
  | num (n : Int)
  | str (s : String)
  | arr (elems : List JsValue)
  | obj (fields : List (String × JsValue))

mutual

/-- The host String() conversion (JS `toString`) of a value:
strings pass through, objects print as "[object Object]",
arrays join their elements with commas. -/
def jsToString : JsValue → String
  | .null => "null"
  | .bool true => "true"
  | .bool false => "false"
  | .num n => toString n
  | .str s => s
  | .arr xs => String.intercalate "," (jsArrayElemStrings xs)
  | .obj _ => "[object Object]"

/-- Element rendering of JS `Array.prototype.toString` (null elements
render as the empty string inside a join). -/
def jsArrayElemStrings : List JsValue → List String
  | [] => []
  | .null :: rest => "" :: jsArrayElemStrings rest
  | v :: rest => jsToString v :: jsArrayElemStrings rest

end

/-- String escaping of the host `JSON.stringify` (quote and backslash;
control characters do not occur in the inputs considered here). -/
def jsonEscape (s : String) : String :=
  s.data.foldr
    (fun c acc =>
      if c = '\\' then "\\\\" ++ acc
      else if c = '"' then "\\\"" ++ acc
      else String.singleton c ++ acc) ""

mutual

/-- The host `JSON.stringify` on JsValue. -/
def jsonStringify : JsValue → String
  | .null => "null"
  | .bool true => "true"
  | .bool false => "false"
  | .num n => toString n
  | .str s => "\"" ++ jsonEscape s ++ "\""
  | .arr xs => "[" ++ String.intercalate "," (jsonStringifyList xs) ++ "]"
  | .obj fs => "\x7b" ++ String.intercalate "," (jsonStringifyFields fs) ++ "\x7d"

def jsonStringifyList : List JsValue → List String
  | [] => []
  | v :: rest => jsonStringify v :: jsonStringifyList rest

def jsonStringifyFields : List (String × JsValue) → List String
  | [] => []
  | (k, v) :: rest =>
      ("\"" ++ jsonEscape k ++ "\":" ++ jsonStringify v) :: jsonStringifyFields rest

end

/-- Return value of `HttpNode._parseNodeResponse`
(source type: Buffer, string or object). A Buffer is modelled by its
byte content viewed as a utf-8 string, which is all the handlers read. -/
inductive NodeBody where
  /-- a plain string: the text result, or the JSON fallback string -/
  | str (s : String)
  /-- the result of a successful JSON.parse -/
  | jsval (v : JsValue)
  /-- the raw Buffer (responseType "buffer") -/
  | buffer (bytes : String)

/-- The JS check `responseBody != null`: only a parsed JSON `null`
is loosely equal to null among the values _parseNodeResponse returns. -/
def NodeBody.isNull : NodeBody → Bool
  | .jsval .null => true
  | _ => false

/-- The JS call `responseBody.toString()`
(Buffer.toString defaults to utf-8). -/
def NodeBody.toStringJs : NodeBody → String
  | .str s => s
  | .jsval v => jsToString v
  | .buffer bytes => bytes

/-- JS truthiness of a response body, used by `if (data)` in
`_createError` (src/unnamed/part_001 line 135). -/
def NodeBody.truthy : NodeBody → Bool
  | .str s => !s.isEmpty
  | .jsval .null => false
  | .jsval (.bool b) => b
  | .jsval (.num n) => n != 0
  | .jsval (.str s) => !s.isEmpty
  | .jsval _ => true
  | .buffer _ => true

/-- The Unified Error shape built by `_createError`
(src/unnamed/part_001 lines 130-139): the spec calls the `status`
field `statusCode`. -/
structure NbError where
  status : Int
  statusText : String
  responseText : String
  data : Option NodeBody

/-- `_createError(status, statusText, responseText, data)` of Head
(src/unnamed/part_001): `data` is attached only when truthy. -/
def _createError (status : Int) (statusText responseText : String)
    (data : Option NodeBody) : NbError :=
  { status := status
    statusText := statusText
    responseText := responseText
    data := match data with
      | some d => if d.truthy then some d else none
      | none => none }

/-- Values passed to the Result Channel resolve function by the
executors. -/
inductive ResolveValue where
  /-- bare body (receiveResponseHeaders false), stream executor -/
  | body (b : NodeBody)
  /-- body, headers and status (receiveResponseHeaders true), stream executor -/
  | envelope (b : NodeBody) (headers : List (String × String)) (status : Int)
  /-- bare body, XHR executor (the already-decoded response slot, falling
  back to responseText) -/
  | xhrBody (b : String)
  /-- envelope, XHR executor: headers come as one concatenated string -/
  | xhrEnvelope (b : String) (headers : String) (status : Int)
  /-- the live stream handle (rawMessage mode) -/
  | rawStream

/-- Observable actions an executor performs: completions through the
Result Channel, transport-primitive operations, header writes, and
the request send itself. -/
inductive Action where
  | resolve (v : ResolveValue)
  | reject (e : NbError)
  | closeStream
  | abortRequest
  | addHeader (name value : String)
  | send

/-- Is the action a rejection of the Result Channel. -/
def Action.isReject : Action → Bool
  | .reject _ => true
  | _ => false

/-- `HttpNode._parseNodeResponse` (src/unnamed/part_003 lines 362-384):
switch on responseType with default falling to the text case; the json
case JSON-parses with fallback to the raw string; `jsonParse` models the
host JSON.parse, `none` standing for a thrown parse exception. The outer
catch (returning null) is unreachable here because utf-8 Buffer.toString
does not throw. -/
def HttpNode._parseNodeResponse (responseType : String)
    (jsonParse : String → Option JsValue) (buffer : String) : NodeBody :=
  if responseType = "json" then
    match jsonParse buffer with
    | some v => .jsval v
    | none => .str buffer
  else if responseType = "buffer" then
    .buffer buffer
  else
    .str buffer

/-- The end handler installed by `HttpNode._setResponseHandlers`
(src/unnamed/part_003 lines 270-296, identically src/unnamed/part_004
lines 149-175): concatenate the received chunks (Buffer.concat), parse
them per responseType, then split on the status into a resolution
(bare body or envelope) or a rejection built by _createError. -/
def HttpNode.setResponseHandlersOnEnd (responseType : String)
    (receiveResponseHeaders : Bool) (jsonParse : String → Option JsValue)
    (status : Int) (statusMessage : String)
    (resHeaders : List (String × String)) (chunks : List String) : Action :=
  let buffer := String.join chunks
  let responseBody := HttpNode._parseNodeResponse responseType jsonParse buffer
  if 200 ≤ status ∧ status < 300 then
    .resolve (if receiveResponseHeaders then
                .envelope responseBody resHeaders status
              else
                .body responseBody)
  else
    let responseText :=
      if responseType != "buffer" && !responseBody.isNull then
        responseBody.toStringJs
      else ""
    .reject (_createError status statusMessage responseText (some responseBody))

/-- The end handler installed by `HttpNode._setHttp2ResponseHandlers`
(src/unnamed/part_003 lines 309-343). `responseEvent` carries the
`:status` value of the response event when one arrived; the local
statusCode stays at its initial 0 otherwise. The handler first closes
the stream, then performs the same split as the HTTP/1 handler, except
the statusText is the sentinel "Unable to get proper response" when the
statusCode is still 0 and empty otherwise. -/
def HttpNode.setHttp2ResponseHandlersOnEnd (responseType : String)
    (receiveResponseHeaders : Bool) (jsonParse : String → Option JsValue)
    (responseEvent : Option Int)
    (resHeaders : List (String × String)) (chunks : List String) : List Action :=
  let buffer := String.join chunks
  let responseBody := HttpNode._parseNodeResponse responseType jsonParse buffer
  let statusCode := responseEvent.getD 0
  [Action.closeStream,
   if 200 ≤ statusCode ∧ statusCode < 300 then
     .resolve (if receiveResponseHeaders then
                 .envelope responseBody resHeaders statusCode
               else
                 .body responseBody)
   else
     let statusMessage := if statusCode = 0 then "Unable to get proper response" else ""
     let responseText :=
       if responseType != "buffer" && !responseBody.isNull then
         responseBody.toStringJs
       else ""
     .reject (_createError statusCode statusMessage responseText (some responseBody))]

/-- The error handler installed by `HttpNode._setHttp2ResponseHandlers`
on the stream (src/unnamed/part_003 lines 343-347): close the stream
and reject with a statusCode-0 Unified Error. -/
def HttpNode.setHttp2ResponseHandlersOnError (message : String) : List Action :=
  [Action.closeStream,
   Action.reject (_createError 0 "HTTP/2 Stream Error" message none)]

/-- The timeout callback `HttpNode._sendHttp2Request` installs on the
HTTP/2 stream when the timeout is positive (src/unnamed/part_003 lines
186-192): it closes the stream and constructs the statusCode-0 Unified
Error, but that error is only passed to the error log (nbError); no call
to this._reject appears in this callback, so the constructed error is
never handed to the Result Channel here. -/
def HttpNode.sendHttp2RequestOnTimeout (timeout : Int) : List Action :=
  let _error := _createError 0 ("HTTP/2 Request timeout: " ++ toString timeout ++ "[msec]") "" none
  [Action.closeStream]

/-- The timeout callback `HttpNode._sendHttpRequest` installs on the
HTTP/1 request when the timeout is positive (src/unnamed/part_003 line
235): it aborts the request; the host then emits an error event on the
aborted request. -/
def HttpNode.sendHttpRequestOnTimeout : List Action :=
  [Action.abortRequest]

/-- The error handler `HttpNode._sendHttpRequest` installs on the HTTP/1
request (src/unnamed/part_003 lines 238-242): reject with a statusCode-0
Unified Error carrying the host exception text. -/
def HttpNode.sendHttpRequestOnError (message : String) : Action :=
  Action.reject (_createError 0 "HTTP request error" message none)

/-- The XHR ready-state handler `HttpXhr._onReadyStateChange`
(src/unnamed/part_012 lines 85-116). `response` models the
already-decoded `xhr.response` slot (loosely non-null when present) and
`responseTextHost` the raw `xhr.responseText` slot. Returns `none` when
readyState is not 4 (no completion fires). -/
def HttpXhr.onReadyStateChange (readyState : Int) (status : Int)
    (statusText : String) (responseType : String)
    (response : Option String) (responseTextHost : String)
    (allResponseHeaders : String) (receiveResponseHeaders : Bool) :
    Option Action :=
  if readyState = 4 then
    if 200 ≤ status ∧ status < 300 then
      let body := response.getD responseTextHost
      some (.resolve (if receiveResponseHeaders then
                        .xhrEnvelope body allResponseHeaders status
                      else
                        .xhrBody body))
    else
      let e0 := _createError status statusText "" none
      let e1 := if responseType != "blob" then
                  { e0 with responseText := responseTextHost }
                else e0
      let e2 := if status = 0 then
                  { e1 with statusText := "Not Found",
                            responseText := "Not found anything that matches the request URI." }
                else e1
      some (.reject e2)
  else
    none

/-- The XHR timeout handler `HttpXhr._onXhrTimeout`
(src/unnamed/part_012 lines 122-126). -/
def HttpXhr.onXhrTimeout (eventText : String) : Action :=
  Action.reject (_createError 0 "Timeout error" eventText none)

/-- Allow-list of client-certificate option keys in `HttpNode.execute`
(src/unnamed/part_003 line 85). -/
def allowedClientCertOptions : List String :=
  ["pfx", "passphrase", "key", "cert", "ca", "privateKeyEngine", "privateKeyIdentifier"]

/-- The client-certificate validation loop of `HttpNode.execute`
(src/unnamed/part_003 lines 88-100): walk the configured option keys in
insertion order; on the first key outside the allow-list, return the
statusCode-0 Unified Error the code passes to this._reject. -/
def HttpNode.executeClientCertLoop : List (String × JsValue) → Option NbError
  | [] => none
  | (key, v) :: rest =>
    if allowedClientCertOptions.contains key then
      HttpNode.executeClientCertLoop rest
    else
      some (_createError 0 ("invalid parameter: " ++ key)
              (" value: " ++ jsonStringify v) none)

/-- The HTTPS branch of `HttpNode.execute` around the client-certificate
options (src/unnamed/part_003 lines 83-130), as the list of actions it
performs: on an offending key the method calls this._reject with the
error and returns (no exception is thrown, nothing is sent); otherwise
it proceeds to send the request. -/
def HttpNode.executeHttpsValidation
    (clientCertOptions : Option (List (String × JsValue))) : List Action :=
  match clientCertOptions with
  | none => [Action.send]
  | some opts =>
    match HttpNode.executeClientCertLoop opts with
    | some e => [Action.reject e]
    | none => [Action.send]

/-- An HTTP/2 client session handle as the pool code observes it:
an identity plus the destroyed and closed flags the sweep reads
(src/unnamed/part_003 line 150). -/
structure H2Session where
  id : Nat
  destroyed : Bool
  closed : Bool
deriving Repr, DecidableEq

/-- The static session pool `HttpNode._http2Sessions`: a JS object keyed
by authority string, modelled as an association list in property order. -/
abbrev H2Pool := List (String × H2Session)

/-- `HttpNode.getHttp2Session` (src/unnamed/part_003 lines 432-438):
the session stored under the authority, none when absent. -/
def HttpNode.getHttp2Session (pool : H2Pool) (authority : String) :
    Option H2Session :=
  (pool.find? (fun kv => kv.1 == authority)).map (fun kv => kv.2)

/-- `HttpNode.setHttp2Session` (src/unnamed/part_003 lines 445-447):
JS property assignment — overwrite the entry when the key exists,
otherwise append it. -/
def HttpNode.setHttp2Session (pool : H2Pool) (authority : String)
    (s : H2Session) : H2Pool :=
  if (pool.find? (fun kv => kv.1 == authority)).isSome then
    pool.map (fun kv => if kv.1 == authority then (authority, s) else kv)
  else
    pool ++ [(authority, s)]

/-- `HttpNode.closeHttp2Session(authority)` as it acts on the pool
(src/unnamed/part_003 lines 453-474): when the authority is present the
session is closed or destroyed (host side effects) and the key is
deleted; an absent authority leaves the pool unchanged. -/
def HttpNode.closeHttp2Session (pool : H2Pool) (authority : String) : H2Pool :=
  match HttpNode.getHttp2Session pool authority with
  | some _ => pool.filter (fun kv => kv.1 != authority)
  | none => pool

/-- The sweep at the start of `HttpNode._sendHttp2Request`
(src/unnamed/part_003 lines 146-154): every pooled session reporting
itself destroyed or closed is passed to closeHttp2Session, i.e. removed
from the pool; live entries are kept. With the keys pairwise distinct
(a JS object cannot hold a key twice) the net effect of the iteration is
this filter. -/
def HttpNode.cleanupHttp2Sessions : H2Pool → H2Pool
  | [] => []
  | (k, s) :: rest =>
    if s.destroyed || s.closed then
      HttpNode.cleanupHttp2Sessions rest
    else
      (k, s) :: HttpNode.cleanupHttp2Sessions rest

/-- The session-pool part of `HttpNode._sendHttp2Request`
(src/unnamed/part_003 lines 146-175): sweep dead sessions, then reuse
the pooled session of the authority if one remains, else connect a fresh
session (identity `freshId`) and register it. Returns the new pool, the
session the request is issued on, and whether a session was created. -/
def HttpNode.sendHttp2RequestPool (pool : H2Pool) (authority : String)
    (freshId : Nat) : H2Pool × H2Session × Bool :=
  let cleaned := HttpNode.cleanupHttp2Sessions pool
  match HttpNode.getHttp2Session cleaned authority with
  | some s => (cleaned, s, false)
  | none =>
    let s : H2Session := { id := freshId, destroyed := false, closed := false }
    (HttpNode.setHttp2Session cleaned authority s, s, true)

/-- JS numbers as `FileBucket._createRangeValue` inspects them: either an
integer, or a number with Number.isInteger false (NaN or fractional),
carried with its JS string rendering for the error message. -/
inductive JsNum where
  | int (n : Int)
  | nonInt (rendering : String)
deriving Repr, DecidableEq

/-- `Number.isInteger`. -/
def JsNum.isInteger : JsNum → Bool
  | .int _ => true
  | .nonInt _ => false

/-- The comparison `x < 0` (never reached on the nonInt case because the
source checks `!Number.isInteger(x) || x < 0` left to right). -/
def JsNum.ltZero : JsNum → Bool
  | .int n => decide (n < 0)
  | .nonInt _ => false

/-- JS string conversion of the number. -/
def JsNum.render : JsNum → String
  | .int n => toString n
  | .nonInt r => r

/-- The range-value construction of `FileBucket._createRangeValue`
after validation passed (src/FileBucket.ts lines 780-795). -/
def FileBucket.rangeString (rangeStart rangeEnd : Option JsNum) : Option String :=
  match rangeStart, rangeEnd with
  | none, none => none
  | some s, none => some (s.render ++ "-")
  | none, some e => some ("-" ++ e.render)
  | some s, some e => some (s.render ++ "-" ++ e.render)

/-- `FileBucket._createRangeValue` (src/FileBucket.ts lines 770-796):
validate start then end (undefined allowed; otherwise the value must be
a non-negative integer or an Error is thrown), then build the range
value; `Except.error` models the thrown Error and carries its message. -/
def FileBucket.createRangeValue (rangeStart rangeEnd : Option JsNum) :
    Except String (Option String) :=
  match rangeStart with
  | some s =>
    if !s.isInteger || s.ltZero then
      .error ("invalid rangeStart value: " ++ s.render)
    else
      match rangeEnd with
      | some e =>
        if !e.isInteger || e.ltZero then
          .error ("invalid rangeEnd value: " ++ e.render)
        else
          .ok (FileBucket.rangeString rangeStart rangeEnd)
      | none => .ok (FileBucket.rangeString rangeStart rangeEnd)
  | none =>
    match rangeEnd with
    | some e =>
      if !e.isInteger || e.ltZero then
        .error ("invalid rangeEnd value: " ++ e.render)
      else
        .ok (FileBucket.rangeString rangeStart rangeEnd)
    | none => .ok (FileBucket.rangeString rangeStart rangeEnd)

/-- The Range portion of `FileBucket._load` (src/FileBucket.ts lines
733-740 and 754): _createRangeValue runs first; when it throws, the
exception propagates before req.execute() is reached (no network I/O);
when it returns a value, the Range header is added and the request is
then executed. -/
def FileBucket.loadRangePart (rangeStart rangeEnd : Option JsNum) :
    Except String (List Action) :=
  match FileBucket.createRangeValue rangeStart rangeEnd with
  | .error m => .error m
  | .ok none => .ok [Action.send]
  | .ok (some r) => .ok [Action.addHeader "Range" ("bytes=" ++ r), Action.send]

/-- State of the es6 promise that `HttpRequest.execute` creates
(src/unnamed/part_004 lines 471-521); its resolve and reject functions
are stored as `_resolve` and `_reject` and handed to the executor. -/
inductive ChannelState where
  | pending
  | fulfilled (v : ResolveValue)
  | rejected (e : NbError)

/-- One internal completion call against the Result Channel. -/
inductive Settle where
  | res (v : ResolveValue)
  | rej (e : NbError)

/-- The settle-once semantics of the promise resolve and reject
functions: a call only takes effect while the promise is pending. -/
def Channel.settle (st : ChannelState) (call : Settle) : ChannelState :=
  match st with
  | .pending =>
    match call with
    | .res v => .fulfilled v
    | .rej e => .rejected e
  | st => st

/-- A sequence of internal resolve and reject calls applied in order. -/
def Channel.runSettles (st : ChannelState) (calls : List Settle) : ChannelState :=
  calls.foldl Channel.settle st

/-- Callbacks object of the public API (src/unnamed/part_001 lines
34-37): both members optional; only their presence is observable to
`_promisify`. -/
structure CallbacksM where
  hasSuccess : Bool
  hasError : Bool
deriving Repr, DecidableEq

/-- The eventual settlement of the promise handed to `_promisify`. -/
inductive Outcome where
  | fulfilled (v : ResolveValue)
  | rejected (e : NbError)

/-- A callback invocation `_promisify` performs. -/
inductive CallbackCall where
  | success (v : ResolveValue)
  | error (e : NbError)

/-- Result of a `_promisify` call: the value returned to the public
caller (some outcome = the promise itself; none = undefined) and the
callback invocations made once the promise settles. -/
structure PromisifyResult where
  returned : Option Outcome
  calls : List CallbackCall

/-- `_promisify(promise, callbacks)` (src/unnamed/part_001 lines 82-97):
with a callbacks object, chain then/catch funneling the value into
callbacks.success and the error into callbacks.error when present, and
return undefined; without one, return the promise unchanged. -/
def _promisify (outcome : Outcome) (callbacks : Option CallbacksM) :
    PromisifyResult :=
  match callbacks with
  | some cb =>
    { returned := none
      calls :=
        match outcome with
        | .fulfilled v => if cb.hasSuccess then [CallbackCall.success v] else []
        | .rejected e => if cb.hasError then [CallbackCall.error e] else [] }
  | none => { returned := some outcome, calls := [] }

/-- The header map `HttpRequest._headers`, a JS object read through
property lookup. -/
abbrev HeadersMap := String → Option String

/-- The empty header map of a fresh HttpRequest. -/
def HttpRequest.emptyHeaders : HeadersMap := fun _ => none

/-- `HttpRequest.addRequestHeader` (src/unnamed/part_004 lines 643-650):
when the name is already set a warning is logged (second component);
the value is then assigned unconditionally, replacing any previous one. -/
def HttpRequest.addRequestHeader (headers : HeadersMap)
    (header value : String) : HeadersMap × Bool :=
  (fun k => if k = header then some value else headers k,
   (headers header).isSome)

/-- A sequence of addRequestHeader calls applied in order. -/
def HttpRequest.applyAddRequestHeaders (headers : HeadersMap) :
    List (String × String) → HeadersMap
  | [] => headers
  | (n, v) :: rest =>
    HttpRequest.applyAddRequestHeaders
      (HttpRequest.addRequestHeader headers n v).1 rest

/-- The last value a call sequence sets for a given header name. -/
def HttpRequest.lastHeaderValue : List (String × String) → String → Option String
  | [], _ => none
  | (n, v) :: rest, k =>
    match HttpRequest.lastHeaderValue rest k with
    | some w => some w
    | none => if n = k then some v else none

/-- The first configured client-certificate option key outside the
allow-list, with its value, in iteration order. -/
def HttpNode.firstDisallowedClientCertOption :
    List (String × JsValue) → Option (String × JsValue)
  | [] => none
  | (key, v) :: rest =>
    if allowedClientCertOptions.contains key then
      HttpNode.firstDisallowedClientCertOption rest
    else
      some (key, v)

/-- A jsonParse oracle on which every input fails to parse. -/
def jsonParseAlwaysFails : String → Option JsValue := fun _ => none

/-- A jsonParse oracle parsing the body of a typical JSON error
response into the corresponding object. -/
def jsonParseErrObj : String → Option JsValue :=
  fun s =>
    if s = "\x7b\"error\":\"Not Found\"\x7d" then
      some (.obj [("error", .str "Not Found")])
    else
      none

/-- C1: for a stream-executor request with a positive timeout that does
not complete in time, the spec says the executor aborts the transport
primitive and delivers a statusCode-0 Unified Error through the Result
Channel. The HTTP/1 path does abort (its error handler then rejects
with statusCode 0), but the HTTP/2 timeout callback only closes the
stream: evaluated at the failing input (a 50 msec timeout expiring), its
emitted actions are exactly the stream close — the Unified Error it
constructs is never passed to a rejection, so no completion reaches the
Result Channel from this callback. -/
theorem c1_http2_timeout_constructs_but_never_delivers :
    HttpNode.sendHttp2RequestOnTimeout 50 = [Action.closeStream] ∧
    (HttpNode.sendHttp2RequestOnTimeout 50).all (fun a => !a.isReject) = true ∧
    HttpNode.sendHttpRequestOnTimeout = [Action.abortRequest] ∧
    HttpNode.sendHttpRequestOnError "Error: socket hang up" =
      Action.reject
        { status := 0, statusText := "HTTP request error",
          responseText := "Error: socket hang up", data := none } :=
  ⟨rfl, rfl, rfl, rfl⟩

/-- C2 counterexample: the claim says a client-certificate configuration
key outside the allow-list makes the request fail with an error raised
synchronously (thrown at call time) and never delivered through the
Result Channel. At the concrete configuration with the single key
"pfx2", `HttpNode.execute` instead performs exactly one rejection of the
Result Channel (and throws nothing): the error IS delivered through the
channel. -/
theorem c2_counterexample :
    HttpNode.executeHttpsValidation (some [("pfx2", JsValue.str "secret")]) =
      [Action.reject
        { status := 0, statusText := "invalid parameter: pfx2",
          responseText := " value: \"secret\"", data := none }] :=
  rfl

theorem clientCertLoop_eq_firstDisallowed (opts : List (String × JsValue)) :
    HttpNode.executeClientCertLoop opts =
      (HttpNode.firstDisallowedClientCertOption opts).map
        (fun kv => _createError 0 ("invalid parameter: " ++ kv.1)
                     (" value: " ++ jsonStringify kv.2) none) := by
  induction opts with
  | nil => rfl
  | cons kv rest ih =>
    obtain ⟨key, v⟩ := kv
    simp only [HttpNode.executeClientCertLoop,
      HttpNode.firstDisallowedClientCertOption]
    cases hc : allowedClientCertOptions.contains key
    · simp [hc]
    · simp [hc, ih]

/-- C2 (amended): when the process-wide client-certificate configuration
contains a key outside the allow-list, every HTTPS request fails before
any I/O with a Unified Error (statusCode 0, statusText naming the first
offending key) delivered through the Result Channel as the request
rejection; no exception is thrown and the request is never sent. -/
theorem c2_invalid_cert_key_rejected_not_thrown
    (opts : List (String × JsValue)) (key : String) (v : JsValue)
    (h : HttpNode.firstDisallowedClientCertOption opts = some (key, v)) :
    HttpNode.executeHttpsValidation (some opts) =
      [Action.reject (_createError 0 ("invalid parameter: " ++ key)
        (" value: " ++ jsonStringify v) none)] ∧
    Action.send ∉ HttpNode.executeHttpsValidation (some opts) := by
  have hloop := clientCertLoop_eq_firstDisallowed opts
  rw [h] at hloop
  constructor
  · simp [HttpNode.executeHttpsValidation, hloop]
  · simp [HttpNode.executeHttpsValidation, hloop]

/-- C2 witness: the amended statement at a concrete configuration whose
second key is outside the allow-list. -/
theorem c2_witness :
    HttpNode.executeHttpsValidation
        (some [("pfx", JsValue.str "a"), ("bogus", JsValue.null)]) =
      [Action.reject (_createError 0 ("invalid parameter: " ++ "bogus")
        (" value: " ++ jsonStringify JsValue.null) none)] ∧
    Action.send ∉ HttpNode.executeHttpsValidation
        (some [("pfx", JsValue.str "a"), ("bogus", JsValue.null)]) :=
  c2_invalid_cert_key_rejected_not_thrown
    [("pfx", JsValue.str "a"), ("bogus", JsValue.null)] "bogus" JsValue.null rfl

/-- C3: status classification in all three executors. For every integer
status s: s in the interval 200 to 299 resolves the request; any other s
(0 included) rejects it with a Unified Error whose statusCode equals s.
The three handlers are the HTTP/1 stream end handler, the HTTP/2 stream
end handler (its status read from the response event), and the XHR
ready-state handler at readyState 4. -/
theorem c3_status_classification (s : Int)
    (responseType statusMessage statusText responseTextHost allHeaders : String)
    (receive : Bool) (jsonParse : String → Option JsValue)
    (resHeaders : List (String × String)) (chunks : List String)
    (response : Option String) :
    (200 ≤ s ∧ s < 300 →
      (∃ v, HttpNode.setResponseHandlersOnEnd responseType receive jsonParse
              s statusMessage resHeaders chunks = .resolve v) ∧
      (∃ v, HttpNode.setHttp2ResponseHandlersOnEnd responseType receive jsonParse
              (some s) resHeaders chunks = [.closeStream, .resolve v]) ∧
      (∃ v, HttpXhr.onReadyStateChange 4 s statusText responseType response
              responseTextHost allHeaders receive = some (.resolve v))) ∧
    (¬(200 ≤ s ∧ s < 300) →
      (∃ e, HttpNode.setResponseHandlersOnEnd responseType receive jsonParse
              s statusMessage resHeaders chunks = .reject e ∧ e.status = s) ∧
      (∃ e, HttpNode.setHttp2ResponseHandlersOnEnd responseType receive jsonParse
              (some s) resHeaders chunks = [.closeStream, .reject e] ∧ e.status = s) ∧
      (∃ e, HttpXhr.onReadyStateChange 4 s statusText responseType response
              responseTextHost allHeaders receive = some (.reject e) ∧ e.status = s)) := by
  constructor
  · rintro ⟨h1, h2⟩
    refine ⟨?_, ?_, ?_⟩
    · simp [HttpNode.setResponseHandlersOnEnd, h1, h2]
    · simp [HttpNode.setHttp2ResponseHandlersOnEnd, h1, h2]
    · simp [HttpXhr.onReadyStateChange, h1, h2]
  · intro h
    refine ⟨?_, ?_, ?_⟩
    · simp [HttpNode.setResponseHandlersOnEnd, h, _createError]
    · simp [HttpNode.setHttp2ResponseHandlersOnEnd, h, _createError]
    · simp [HttpXhr.onReadyStateChange, h, _createError]
      split_ifs <;> simp

/-- C3 witness: the classification at status 204 (resolves) and status
404 (rejects with statusCode 404) in all three executors. -/
theorem c3_witness :
    (∃ v, HttpNode.setResponseHandlersOnEnd "text" false jsonParseAlwaysFails
            204 "" [] [] = .resolve v) ∧
    (∃ e, HttpNode.setResponseHandlersOnEnd "text" false jsonParseAlwaysFails
            404 "Not Found" [] ["nope"] = .reject e ∧ e.status = 404) ∧
    (∃ e, HttpNode.setHttp2ResponseHandlersOnEnd "text" false jsonParseAlwaysFails
            (some 404) [] ["nope"] = [.closeStream, .reject e] ∧ e.status = 404) ∧
    (∃ e, HttpXhr.onReadyStateChange 4 404 "Not Found" "text" none "nope" ""
            false = some (.reject e) ∧ e.status = 404) :=
  ⟨((c3_status_classification 204 "text" "" "" "" "" false jsonParseAlwaysFails
      [] [] none).1 (by decide)).1,
   ((c3_status_classification 404 "text" "Not Found" "Not Found" "nope" "" false
      jsonParseAlwaysFails [] ["nope"] none).2 (by decide)).1,
   ((c3_status_classification 404 "text" "Not Found" "Not Found" "nope" "" false
      jsonParseAlwaysFails [] ["nope"] none).2 (by decide)).2.1,
   ((c3_status_classification 404 "text" "Not Found" "Not Found" "nope" "" false
      jsonParseAlwaysFails [] ["nope"] none).2 (by decide)).2.2⟩

theorem cleanupHttp2Sessions_sublist (p : H2Pool) :
    List.Sublist (HttpNode.cleanupHttp2Sessions p) p := by
  induction p with
  | nil => exact List.Sublist.slnil
  | cons kv rest ih =>
    obtain ⟨k, s⟩ := kv
    simp only [HttpNode.cleanupHttp2Sessions]
    split
    · exact List.Sublist.cons _ ih
    · exact List.Sublist.cons₂ _ ih

theorem cleanupHttp2Sessions_mem_live (p : H2Pool) (kv : String × H2Session)
    (h : kv ∈ HttpNode.cleanupHttp2Sessions p) :
    kv.2.destroyed = false ∧ kv.2.closed = false := by
  induction p with
  | nil => simp [HttpNode.cleanupHttp2Sessions] at h
  | cons hd rest ih =>
    obtain ⟨k, s⟩ := hd
    simp only [HttpNode.cleanupHttp2Sessions] at h
    by_cases hdc : (s.destroyed || s.closed) = true
    · rw [if_pos hdc] at h
      exact ih h
    · rw [if_neg hdc] at h
      rcases List.mem_cons.mp h with heq | hmem
      · subst heq
        simpa using hdc
      · exact ih hmem

theorem cleanupHttp2Sessions_keeps (p : H2Pool) (kv : String × H2Session)
    (h : kv ∈ p) (hd : kv.2.destroyed = false) (hc : kv.2.closed = false) :
    kv ∈ HttpNode.cleanupHttp2Sessions p := by
  induction p with
  | nil => simp at h
  | cons hd0 rest ih =>
    obtain ⟨k, s⟩ := hd0
    simp only [HttpNode.cleanupHttp2Sessions]
    rcases List.mem_cons.mp h with heq | hmem
    · subst heq
      rw [if_neg (by
        simp only [Bool.or_eq_true, not_or, Bool.not_eq_true]
        exact ⟨hd, hc⟩)]
      exact List.mem_cons_self _ _
    · split
      · exact ih hmem
      · exact List.mem_cons_of_mem _ (ih hmem)

theorem getHttp2Session_cleanup_none (p : H2Pool) (a : String)
    (h : HttpNode.getHttp2Session p a = none) :
    HttpNode.getHttp2Session (HttpNode.cleanupHttp2Sessions p) a = none := by
  unfold HttpNode.getHttp2Session at h ⊢
  rw [Option.map_eq_none'] at h ⊢
  apply List.find?_eq_none.mpr
  intro x hx
  exact List.find?_eq_none.mp h x ((cleanupHttp2Sessions_sublist p).subset hx)

theorem getHttp2Session_close_none (p : H2Pool) (a : String) :
    HttpNode.getHttp2Session (HttpNode.closeHttp2Session p a) a = none := by
  rcases hg : HttpNode.getHttp2Session p a with _ | s
  · simp only [HttpNode.closeHttp2Session, hg]
  · simp only [HttpNode.closeHttp2Session, hg]
    unfold HttpNode.getHttp2Session
    rw [Option.map_eq_none']
    apply List.find?_eq_none.mpr
    intro x hx
    have hne := (List.mem_filter.mp hx).2
    simp only [bne_iff_ne, ne_eq] at hne
    simp [hne]

theorem find?_map_replace (p : H2Pool) (a : String) (s : H2Session) :
    (p.map (fun kv => if kv.1 == a then (a, s) else kv)).find?
        (fun kv => kv.1 == a) =
      (p.find? (fun kv => kv.1 == a)).map (fun _ => (a, s)) := by
  induction p with
  | nil => rfl
  | cons kv rest ih =>
    simp only [List.map_cons]
    by_cases hk : (kv.1 == a) = true
    · rw [if_pos hk]
      simp only [List.find?_cons]
      rw [hk]
      simp
    · rw [if_neg hk]
      simp only [List.find?_cons]
      rw [Bool.not_eq_true] at hk
      rw [hk]
      exact ih

theorem getHttp2Session_set_self (p : H2Pool) (a : String) (s : H2Session) :
    HttpNode.getHttp2Session (HttpNode.setHttp2Session p a s) a = some s := by
  unfold HttpNode.setHttp2Session
  by_cases hf : ((p.find? (fun kv => kv.1 == a)).isSome) = true
  · rw [if_pos hf]
    unfold HttpNode.getHttp2Session
    rw [find?_map_replace]
    obtain ⟨kv, hkv⟩ := Option.isSome_iff_exists.mp hf
    rw [hkv]
    rfl
  · rw [if_neg hf]
    have hnone : p.find? (fun kv => kv.1 == a) = none := by
      cases h' : p.find? (fun kv => kv.1 == a)
      · rfl
      · rw [h'] at hf
        simp at hf
    unfold HttpNode.getHttp2Session
    rw [List.find?_append, hnone]
    simp [List.find?_cons]

theorem sendHttp2RequestPool_nodupKeys (pool : H2Pool) (a : String) (i : Nat)
    (h : (pool.map Prod.fst).Nodup) :
    (((HttpNode.sendHttp2RequestPool pool a i).1).map Prod.fst).Nodup := by
  have hclean : ((HttpNode.cleanupHttp2Sessions pool).map Prod.fst).Nodup :=
    h.sublist ((cleanupHttp2Sessions_sublist pool).map Prod.fst)
  unfold HttpNode.sendHttp2RequestPool
  rcases hg : HttpNode.getHttp2Session (HttpNode.cleanupHttp2Sessions pool) a with _ | s
  · simp only [hg]
    have hfind : (HttpNode.cleanupHttp2Sessions pool).find?
        (fun kv => kv.1 == a) = none := Option.map_eq_none'.mp hg
    unfold HttpNode.setHttp2Session
    rw [hfind]
    simp only [Option.isSome_none, Bool.false_eq_true, if_false]
    rw [List.map_append]
    refine List.Nodup.append hclean (by simp) ?_
    intro x hx hx2
    simp only [List.map_cons, List.map_nil, List.mem_singleton] at hx2
    subst hx2
    obtain ⟨kv, hkv, hfst⟩ := List.mem_map.mp hx
    have hne := List.find?_eq_none.mp hfind kv hkv
    simp [hfst] at hne
  · simpa only [hg] using hclean

/-- C4: the HTTP/2 session pool invariant. The sweep before each
multiplexed request evicts exactly the sessions reporting themselves
destroyed or closed; when the swept pool has no session for the
authority, exactly one fresh session is created and registered under it;
when it has one, that session is reused and nothing is created;
closeHttp2Session leaves the pool without the authority, so the next
request to it creates a fresh session; and the pool keys stay pairwise
distinct, so each authority maps to at most one live session. -/
theorem c4_session_pool (pool : H2Pool) (authority : String)
    (freshId freshId2 : Nat) :
    (∀ kv ∈ HttpNode.cleanupHttp2Sessions pool,
       kv.2.destroyed = false ∧ kv.2.closed = false) ∧
    (∀ kv ∈ pool, kv.2.destroyed = false → kv.2.closed = false →
       kv ∈ HttpNode.cleanupHttp2Sessions pool) ∧
    (HttpNode.getHttp2Session (HttpNode.cleanupHttp2Sessions pool) authority = none →
       (HttpNode.sendHttp2RequestPool pool authority freshId).2.2 = true ∧
       HttpNode.getHttp2Session
           (HttpNode.sendHttp2RequestPool pool authority freshId).1 authority =
         some { id := freshId, destroyed := false, closed := false }) ∧
    (∀ s, HttpNode.getHttp2Session (HttpNode.cleanupHttp2Sessions pool) authority = some s →
       HttpNode.sendHttp2RequestPool pool authority freshId =
         (HttpNode.cleanupHttp2Sessions pool, s, false)) ∧
    HttpNode.getHttp2Session (HttpNode.closeHttp2Session pool authority) authority = none ∧
    (HttpNode.sendHttp2RequestPool
        (HttpNode.closeHttp2Session pool authority) authority freshId2).2.2 = true ∧
    ((pool.map Prod.fst).Nodup →
       (((HttpNode.sendHttp2RequestPool pool authority freshId).1).map Prod.fst).Nodup) := by
  refine ⟨fun kv h => cleanupHttp2Sessions_mem_live pool kv h,
          fun kv h hd hc => cleanupHttp2Sessions_keeps pool kv h hd hc,
          ?_, ?_, getHttp2Session_close_none pool authority, ?_,
          fun h => sendHttp2RequestPool_nodupKeys pool authority freshId h⟩
  · intro hg
    constructor
    · simp [HttpNode.sendHttp2RequestPool, hg]
    · simp [HttpNode.sendHttp2RequestPool, hg, getHttp2Session_set_self]
  · intro s hg
    simp [HttpNode.sendHttp2RequestPool, hg]
  · have h5 := getHttp2Session_close_none pool authority
    have h6 := getHttp2Session_cleanup_none _ authority h5
    simp [HttpNode.sendHttp2RequestPool, h6]

/-- C4 witness: a concrete pool holding a destroyed session for one
authority and a live one for another. A request to the live authority
sweeps the dead entry and reuses the live session without creating one;
a request to an unpooled authority creates and registers a fresh
session; the keys stay pairwise distinct. -/
theorem c4_witness :
    HttpNode.sendHttp2RequestPool
        [("https://a.example.com", ⟨1, true, false⟩),
         ("https://b.example.com", ⟨2, false, false⟩)]
        "https://b.example.com" 7 =
      (HttpNode.cleanupHttp2Sessions
         [("https://a.example.com", ⟨1, true, false⟩),
          ("https://b.example.com", ⟨2, false, false⟩)],
       ⟨2, false, false⟩, false) ∧
    ((HttpNode.sendHttp2RequestPool
        [("https://a.example.com", ⟨1, true, false⟩),
         ("https://b.example.com", ⟨2, false, false⟩)]
        "https://c.example.com" 7).2.2 = true ∧
     HttpNode.getHttp2Session
        (HttpNode.sendHttp2RequestPool
          [("https://a.example.com", ⟨1, true, false⟩),
           ("https://b.example.com", ⟨2, false, false⟩)]
          "https://c.example.com" 7).1 "https://c.example.com" =
       some { id := 7, destroyed := false, closed := false }) ∧
    ((((HttpNode.sendHttp2RequestPool
        [("https://a.example.com", ⟨1, true, false⟩),
         ("https://b.example.com", ⟨2, false, false⟩)]
        "https://b.example.com" 7).1).map Prod.fst).Nodup) :=
  ⟨(c4_session_pool
      [("https://a.example.com", ⟨1, true, false⟩),
       ("https://b.example.com", ⟨2, false, false⟩)]
      "https://b.example.com" 7 0).2.2.2.1 ⟨2, false, false⟩ rfl,
   (c4_session_pool
      [("https://a.example.com", ⟨1, true, false⟩),
       ("https://b.example.com", ⟨2, false, false⟩)]
      "https://c.example.com" 7 0).2.2.1 rfl,
   (c4_session_pool
      [("https://a.example.com", ⟨1, true, false⟩),
       ("https://b.example.com", ⟨2, false, false⟩)]
      "https://b.example.com" 7 0).2.2.2.2.2.2 (by decide)⟩

/-- C5: Range header construction. Both bounds given yields the value
start-end verbatim (no ordering correction, so 100 and 1 give "100-1");
only start yields start-; only end yields -end; neither given produces
no Range header at all; and a negative or non-integer bound makes the
builder throw before the request is executed (the load path yields the
thrown error and never reaches its send action). -/
theorem c5_create_range_value :
    (∀ m n : Int, 0 ≤ m → 0 ≤ n →
       FileBucket.createRangeValue (some (.int m)) (some (.int n)) =
         .ok (some (toString m ++ "-" ++ toString n))) ∧
    (∀ m : Int, 0 ≤ m →
       FileBucket.createRangeValue (some (.int m)) none =
         .ok (some (toString m ++ "-"))) ∧
    (∀ n : Int, 0 ≤ n →
       FileBucket.createRangeValue none (some (.int n)) =
         .ok (some ("-" ++ toString n))) ∧
    (FileBucket.createRangeValue none none = .ok none ∧
       FileBucket.loadRangePart none none = .ok [Action.send]) ∧
    (∀ (s : JsNum) (e : Option JsNum), (s.isInteger = false ∨ s.ltZero = true) →
       FileBucket.createRangeValue (some s) e =
           .error ("invalid rangeStart value: " ++ s.render) ∧
         FileBucket.loadRangePart (some s) e =
           .error ("invalid rangeStart value: " ++ s.render)) ∧
    (∀ (s : Option JsNum) (e : JsNum),
       (∀ x, s = some x → x.isInteger = true ∧ x.ltZero = false) →
       (e.isInteger = false ∨ e.ltZero = true) →
       FileBucket.createRangeValue s (some e) =
           .error ("invalid rangeEnd value: " ++ e.render) ∧
         FileBucket.loadRangePart s (some e) =
           .error ("invalid rangeEnd value: " ++ e.render)) := by
  have hbad : ∀ (x : JsNum), x.isInteger = false ∨ x.ltZero = true →
      (!x.isInteger || x.ltZero) = true := by
    intro x hx
    rcases hx with hx | hx <;> simp [hx]
  refine ⟨?_, ?_, ?_, ⟨rfl, rfl⟩, ?_, ?_⟩
  · intro m n hm hn
    simp [FileBucket.createRangeValue, FileBucket.rangeString, JsNum.isInteger,
      JsNum.ltZero, JsNum.render, Int.not_lt.mpr hm, Int.not_lt.mpr hn]
  · intro m hm
    simp [FileBucket.createRangeValue, FileBucket.rangeString, JsNum.isInteger,
      JsNum.ltZero, JsNum.render, Int.not_lt.mpr hm]
  · intro n hn
    simp [FileBucket.createRangeValue, FileBucket.rangeString, JsNum.isInteger,
      JsNum.ltZero, JsNum.render, Int.not_lt.mpr hn]
  · intro s e hs
    have h1 : FileBucket.createRangeValue (some s) e =
        .error ("invalid rangeStart value: " ++ s.render) := by
      cases e <;> simp [FileBucket.createRangeValue, hbad s hs]
    exact ⟨h1, by simp [FileBucket.loadRangePart, h1]⟩
  · intro s e hs he
    have h1 : FileBucket.createRangeValue s (some e) =
        .error ("invalid rangeEnd value: " ++ e.render) := by
      cases s with
      | none => simp [FileBucket.createRangeValue, hbad e he]
      | some x =>
        obtain ⟨hxi, hxz⟩ := hs x rfl
        simp [FileBucket.createRangeValue, hxi, hxz, hbad e he]
    exact ⟨h1, by simp [FileBucket.loadRangePart, h1]⟩

/-- C5 witness: the table rows 100,1 (verbatim, no ordering correction),
0 and nothing, nothing and 0, and a negative start that throws before
the send action. -/
theorem c5_witness :
    FileBucket.createRangeValue (some (.int 100)) (some (.int 1)) =
      .ok (some ("100" ++ "-" ++ "1")) ∧
    FileBucket.createRangeValue (some (.int 0)) none = .ok (some ("0" ++ "-")) ∧
    FileBucket.createRangeValue none (some (.int 0)) = .ok (some ("-" ++ "0")) ∧
    FileBucket.loadRangePart none none = .ok [Action.send] ∧
    FileBucket.loadRangePart (some (.int (-1))) none =
      .error ("invalid rangeStart value: " ++ JsNum.render (.int (-1))) :=
  ⟨by
    have h := c5_create_range_value.1 100 1 (by decide) (by decide)
    simpa using h,
   by
    have h := c5_create_range_value.2.1 0 (by decide)
    simpa using h,
   by
    have h := c5_create_range_value.2.2.1 0 (by decide)
    simpa using h,
   c5_create_range_value.2.2.2.1.2,
   (c5_create_range_value.2.2.2.2.1 (.int (-1)) none (Or.inr (by decide))).2⟩

theorem runSettles_fulfilled (v : ResolveValue) (calls : List Settle) :
    Channel.runSettles (.fulfilled v) calls = .fulfilled v := by
  induction calls with
  | nil => rfl
  | cons c rest ih => exact ih

theorem runSettles_rejected (e : NbError) (calls : List Settle) :
    Channel.runSettles (.rejected e) calls = .rejected e := by
  induction calls with
  | nil => rfl
  | cons c rest ih => exact ih

/-- C6: at-most-once completion of the Result Channel. After the first
resolve or reject call settles the promise that HttpRequest.execute
created, any further sequence of resolve and reject calls, in any order
and of any length, leaves the observed outcome exactly what the first
call made it. -/
theorem c6_at_most_once_completion (first : Settle) (rest : List Settle) :
    Channel.runSettles (Channel.settle .pending first) rest =
      Channel.settle .pending first := by
  cases first with
  | res v => exact runSettles_fulfilled v rest
  | rej e => exact runSettles_rejected e rest

/-- C7 counterexample: the claim says a body that cannot be parsed as
the requested kind makes the request reject with a synthesized decode
error. At the concrete input — responseKind json, status 200, body
"oops" failing to parse — _parseNodeResponse instead falls back to the
raw string and the end handler RESOLVES the request with it; no
rejection occurs at all. -/
theorem c7_counterexample :
    HttpNode._parseNodeResponse "json" jsonParseAlwaysFails "oops" =
      NodeBody.str "oops" ∧
    HttpNode.setResponseHandlersOnEnd "json" false jsonParseAlwaysFails
        200 "OK" [] ["oops"] = Action.resolve (.body (.str "oops")) :=
  ⟨rfl, by
    have hj : String.join ["oops"] = "oops" := by decide
    simp [HttpNode.setResponseHandlersOnEnd, HttpNode._parseNodeResponse,
      jsonParseAlwaysFails, hj]⟩

/-- C7 (amended): a body that fails to parse as the requested json kind
never produces a rejection by itself: _parseNodeResponse falls back to
the raw utf-8 text, a 2xx response resolves with that raw text, and a
non-2xx response rejects with the ordinary protocol error carrying the
raw text as responseText; no decode-specific error is synthesized. -/
theorem c7_json_parse_failure_falls_back
    (jsonParse : String → Option JsValue) (chunks : List String)
    (status : Int) (statusMessage : String)
    (resHeaders : List (String × String))
    (h : jsonParse (String.join chunks) = none) :
    HttpNode._parseNodeResponse "json" jsonParse (String.join chunks) =
      .str (String.join chunks) ∧
    (200 ≤ status ∧ status < 300 →
       HttpNode.setResponseHandlersOnEnd "json" false jsonParse
           status statusMessage resHeaders chunks =
         Action.resolve (.body (.str (String.join chunks)))) ∧
    (¬(200 ≤ status ∧ status < 300) →
       HttpNode.setResponseHandlersOnEnd "json" false jsonParse
           status statusMessage resHeaders chunks =
         Action.reject (_createError status statusMessage (String.join chunks)
           (some (.str (String.join chunks))))) := by
  have hp : HttpNode._parseNodeResponse "json" jsonParse (String.join chunks) =
      .str (String.join chunks) := by
    simp [HttpNode._parseNodeResponse, h]
  refine ⟨hp, ?_, ?_⟩
  · rintro ⟨h1, h2⟩
    simp [HttpNode.setResponseHandlersOnEnd, hp, h1, h2]
  · intro hst
    simp [HttpNode.setResponseHandlersOnEnd, hp, hst, NodeBody.isNull,
      NodeBody.toStringJs]

/-- C7 witness: the amended statement at the concrete failing body
"oops" with status 200 and with status 404. -/
theorem c7_witness :
    HttpNode._parseNodeResponse "json" jsonParseAlwaysFails
        (String.join ["oops"]) = .str (String.join ["oops"]) ∧
    HttpNode.setResponseHandlersOnEnd "json" false jsonParseAlwaysFails
        200 "OK" [] ["oops"] =
      Action.resolve (.body (.str (String.join ["oops"]))) ∧
    HttpNode.setResponseHandlersOnEnd "json" false jsonParseAlwaysFails
        404 "Not Found" [] ["oops"] =
      Action.reject (_createError 404 "Not Found" (String.join ["oops"])
        (some (.str (String.join ["oops"])))) :=
  ⟨(c7_json_parse_failure_falls_back jsonParseAlwaysFails ["oops"]
      200 "OK" [] rfl).1,
   (c7_json_parse_failure_falls_back jsonParseAlwaysFails ["oops"]
      200 "OK" [] rfl).2.1 (by decide),
   (c7_json_parse_failure_falls_back jsonParseAlwaysFails ["oops"]
      404 "Not Found" [] rfl).2.2 (by decide)⟩

/-- C8: the _promisify dual-mode adapter. With a callbacks object whose
members are present, the eventual value goes to callbacks.success, the
eventual error to callbacks.error, and the public call returns
undefined; without a callbacks object the call returns the promise
itself unchanged and invokes nothing. -/
theorem c8_promisify (v : ResolveValue) (e : NbError) (cb : CallbacksM)
    (o : Outcome) (hs : cb.hasSuccess = true) (he : cb.hasError = true) :
    (_promisify (.fulfilled v) (some cb)).returned = none ∧
    (_promisify (.fulfilled v) (some cb)).calls = [CallbackCall.success v] ∧
    (_promisify (.rejected e) (some cb)).returned = none ∧
    (_promisify (.rejected e) (some cb)).calls = [CallbackCall.error e] ∧
    (_promisify o none).returned = some o ∧
    (_promisify o none).calls = [] := by
  simp [_promisify, hs, he]

/-- C8 witness: the adapter at a concrete outcome and a callbacks object
with both members present. -/
theorem c8_witness :
    (_promisify (.fulfilled .rawStream) (some ⟨true, true⟩)).returned = none ∧
    (_promisify (.fulfilled .rawStream) (some ⟨true, true⟩)).calls =
      [CallbackCall.success .rawStream] ∧
    (_promisify (.rejected (_createError 0 "Timeout error" "" none))
        (some ⟨true, true⟩)).returned = none ∧
    (_promisify (.rejected (_createError 0 "Timeout error" "" none))
        (some ⟨true, true⟩)).calls =
      [CallbackCall.error (_createError 0 "Timeout error" "" none)] ∧
    (_promisify (.fulfilled .rawStream) none).returned =
      some (.fulfilled .rawStream) ∧
    (_promisify (.fulfilled .rawStream) none).calls = [] :=
  c8_promisify .rawStream (_createError 0 "Timeout error" "" none)
    ⟨true, true⟩ (.fulfilled .rawStream) rfl rfl

/-- C9 counterexample: the claim says a 404 with a JSON error body
rejects with responseText equal to the raw body text for every
non-binary response kind. At the concrete input — responseKind json,
status 404, body an object literal — the rejection instead carries
responseText "[object Object]" (the JS string conversion of the PARSED
value), which differs from the raw body text. -/
theorem c9_counterexample :
    HttpNode.setResponseHandlersOnEnd "json" false jsonParseErrObj
        404 "Not Found" [] ["\x7b\"error\":\"Not Found\"\x7d"] =
      Action.reject
        { status := 404, statusText := "Not Found",
          responseText := "[object Object]",
          data := some (.jsval (.obj [("error", .str "Not Found")])) } ∧
    "[object Object]" ≠ "\x7b\"error\":\"Not Found\"\x7d" := by
  constructor
  · simp [HttpNode.setResponseHandlersOnEnd, HttpNode._parseNodeResponse,
      jsonParseErrObj, NodeBody.isNull, NodeBody.toStringJs, jsToString,
      _createError, NodeBody.truthy, String.join]
  · decide

/-- C9 (amended): for a non-2xx response such as a 404 with a JSON error
body, the rejection carries statusCode equal to the status and a
responseText that is the raw body text when the responseKind is text, or
when it is json and the body fails to parse; when the json body parses,
responseText is the JS string conversion of the parsed value (for an
object, "[object Object]") rather than the raw text, and an empty string
when the parsed value is null; for the binary buffer kind it is empty. -/
theorem c9_error_response_text
    (jsonParse : String → Option JsValue) (chunks : List String)
    (status : Int) (statusMessage : String)
    (resHeaders : List (String × String))
    (h : ¬(200 ≤ status ∧ status < 300)) :
    HttpNode.setResponseHandlersOnEnd "text" false jsonParse
        status statusMessage resHeaders chunks =
      Action.reject (_createError status statusMessage (String.join chunks)
        (some (.str (String.join chunks)))) ∧
    (jsonParse (String.join chunks) = none →
       HttpNode.setResponseHandlersOnEnd "json" false jsonParse
           status statusMessage resHeaders chunks =
         Action.reject (_createError status statusMessage (String.join chunks)
           (some (.str (String.join chunks))))) ∧
    (∀ v, jsonParse (String.join chunks) = some v → v ≠ JsValue.null →
       HttpNode.setResponseHandlersOnEnd "json" false jsonParse
           status statusMessage resHeaders chunks =
         Action.reject (_createError status statusMessage (jsToString v)
           (some (.jsval v)))) ∧
    (jsonParse (String.join chunks) = some JsValue.null →
       HttpNode.setResponseHandlersOnEnd "json" false jsonParse
           status statusMessage resHeaders chunks =
         Action.reject (_createError status statusMessage ""
           (some (.jsval JsValue.null)))) ∧
    HttpNode.setResponseHandlersOnEnd "buffer" false jsonParse
        status statusMessage resHeaders chunks =
      Action.reject (_createError status statusMessage ""
        (some (.buffer (String.join chunks)))) := by
  refine ⟨?_, ?_, ?_, ?_, ?_⟩
  · simp [HttpNode.setResponseHandlersOnEnd, HttpNode._parseNodeResponse, h,
      NodeBody.isNull, NodeBody.toStringJs]
  · intro hp
    simp [HttpNode.setResponseHandlersOnEnd, HttpNode._parseNodeResponse, h,
      hp, NodeBody.isNull, NodeBody.toStringJs]
  · intro v hp hv
    have hnull : NodeBody.isNull (.jsval v) = false := by
      cases v <;> simp [NodeBody.isNull] at hv ⊢
    simp [HttpNode.setResponseHandlersOnEnd, HttpNode._parseNodeResponse, h,
      hp, hnull, NodeBody.toStringJs]
  · intro hp
    simp [HttpNode.setResponseHandlersOnEnd, HttpNode._parseNodeResponse, h,
      hp, NodeBody.isNull]
  · simp [HttpNode.setResponseHandlersOnEnd, HttpNode._parseNodeResponse, h,
      NodeBody.isNull]

/-- C9 witness: the amended statement at status 404 with the object
error body (responseText "[object Object]") and at the text kind
(responseText equal to the raw body). -/
theorem c9_witness :
    HttpNode.setResponseHandlersOnEnd "text" false jsonParseErrObj
        404 "Not Found" [] ["\x7b\"error\":\"Not Found\"\x7d"] =
      Action.reject (_createError 404 "Not Found"
        (String.join ["\x7b\"error\":\"Not Found\"\x7d"])
        (some (.str (String.join ["\x7b\"error\":\"Not Found\"\x7d"])))) ∧
    HttpNode.setResponseHandlersOnEnd "json" false jsonParseErrObj
        404 "Not Found" [] ["\x7b\"error\":\"Not Found\"\x7d"] =
      Action.reject (_createError 404 "Not Found"
        (jsToString (.obj [("error", .str "Not Found")]))
        (some (.jsval (.obj [("error", .str "Not Found")])))) :=
  ⟨(c9_error_response_text jsonParseErrObj ["\x7b\"error\":\"Not Found\"\x7d"]
      404 "Not Found" [] (by decide)).1,
   (c9_error_response_text jsonParseErrObj ["\x7b\"error\":\"Not Found\"\x7d"]
      404 "Not Found" [] (by decide)).2.2.1
     (.obj [("error", .str "Not Found")])
     (by simp [jsonParseErrObj, String.join])
     (fun hx => JsValue.noConfusion hx)⟩

theorem applyAddRequestHeaders_lookup (calls : List (String × String)) :
    ∀ (headers : HeadersMap) (k : String),
      HttpRequest.applyAddRequestHeaders headers calls k =
        (match HttpRequest.lastHeaderValue calls k with
         | some w => some w
         | none => headers k) := by
  induction calls with
  | nil => intro headers k; rfl
  | cons c rest ih =>
    intro headers k
    obtain ⟨n, v⟩ := c
    simp only [HttpRequest.applyAddRequestHeaders]
    rw [ih]
    simp only [HttpRequest.lastHeaderValue, HttpRequest.addRequestHeader]
    cases HttpRequest.lastHeaderValue rest k with
    | some w => rfl
    | none =>
      by_cases hk : n = k
      · subst hk
        simp
      · rw [if_neg hk, if_neg (fun hkk => hk hkk.symm)]

/-- C10: addRequestHeader keeps at most one value per header name. For
any sequence of calls, the resulting header map holds for each name
exactly the last value set for it (the initial value when the sequence
never sets it); setting an already-present name replaces the value and
only raises the warning flag (the function is total: it never throws and
never concatenates). -/
theorem c10_add_request_header (headers : HeadersMap)
    (calls : List (String × String)) (k n v : String) :
    HttpRequest.applyAddRequestHeaders headers calls k =
      (match HttpRequest.lastHeaderValue calls k with
       | some w => some w
       | none => headers k) ∧
    (HttpRequest.addRequestHeader headers n v).1 n = some v ∧
    (HttpRequest.addRequestHeader headers n v).2 = (headers n).isSome := by
  refine ⟨applyAddRequestHeaders_lookup calls headers k, ?_, rfl⟩
  simp [HttpRequest.addRequestHeader]

end BaasClient
